import Mathlib

/-!
Verification development for the go-musthave-metrics repository.

Shallow embedding of the metric server/agent code into Lean 4.  Go maps are
modelled as association lists with Go map semantics (assignment replaces an
existing binding, indexing an absent key reads the zero value), Go `int64`
as `Int` with explicit wrap-around at each machine operation, and Go
`float64` gauge payloads as an abstract value domain `F64` (no claim below
performs floating-point arithmetic: gauges are only stored, overwritten and
compared, so IEEE-754 rounding never enters; `Rat` is used to keep the
definitions executable and equality decidable).  A Go `context.Context` is
modelled by the one bit of it the code consults: whether it has been
cancelled at the point of the `select`/wait that inspects it.
-/

set_option maxRecDepth 10000

namespace GoMetrics

/-! ## Go scalar primitives -/

/-- Two to the sixty-third power, the magnitude bound of Go `int64`. -/
def i64Half : Int := 9223372036854775808

/-- Two to the sixty-fourth power, the modulus of Go `int64` arithmetic. -/
def i64Mod : Int := 18446744073709551616

/-- Wrap an unbounded integer into the Go `int64` range, the semantics of
Go `int64` overflow (two-complement wrap-around). -/
def wrap64 (x : Int) : Int := (x + i64Half) % i64Mod - i64Half

/-- The integer lies in the Go `int64` range. -/
def isInt64 (x : Int) : Prop := -i64Half ≤ x ∧ x < i64Half

instance (x : Int) : Decidable (isInt64 x) := by
  unfold isInt64; infer_instance

/-- Gauge payload domain: Go `float64` values as stored and compared by the
code under verification (no arithmetic is ever performed on them). -/
abbrev F64 := Rat

/-! ## Go map primitives

A Go `map[string]V` is an association list.  `mapSet` is Go map assignment
`m[k] = v`; `mapGet?` is the comma-ok read `v, ok := m[k]`; `mapGetD` is the
plain read `m[k]` which yields the zero value when the key is absent. -/

def mapSet {α : Type} : List (String × α) → String → α → List (String × α)
  | [], k, v => [(k, v)]
  | (k', v') :: rest, k, v =>
      if k' = k then (k, v) :: rest else (k', v') :: mapSet rest k v

def mapGet? {α : Type} : List (String × α) → String → Option α
  | [], _ => none
  | (k', v') :: rest, k => if k' = k then some v' else mapGet? rest k

def mapGetD {α : Type} (m : List (String × α)) (k : String) (d : α) : α :=
  (mapGet? m k).getD d

/-! ## MemStorage (internal/repository/memstorage.go)

The Go struct holds two live maps, an `atomic.Value` cache per map and a
monotonic version counter.  `NewMemStorage` stores a pointer to the very
map object it also keeps as the live map into the cache, and no code path
ever stores a different pointer into `cachedGauges`/`cachedCounters`, so
the pointer handed out by `GetGauges`/`GetCounters` always denotes the live
map.  The state therefore holds a single gauge map object and a single
counter map object; the reference type `LiveRef` below represents the
pointer returned to callers, and dereferencing it reads the live map of
whatever state the dereference happens in. -/

structure MemStorage where
  gauges : List (String × F64)
  counters : List (String × Int)
  version : Int
deriving DecidableEq

/-- Go `NewMemStorage()`. -/
def newMemStorage : MemStorage := { gauges := [], counters := [], version := 0 }

/-- Go errors are modelled by their message string. -/
abbrev GoErr := String

/-- The error returned by `ctx.Err()` after cancellation. -/
def ctxCanceledErr : GoErr := "context canceled"

/-- Go `(*MemStorage).UpdateGauge`: ctx check, then `s.gauges[name] = value`
and a version bump under the write lock. -/
def MemStorage.updateGauge (cancelled : Bool) (s : MemStorage) (name : String)
    (value : F64) : Except GoErr MemStorage :=
  if cancelled then .error ctxCanceledErr
  else .ok { s with gauges := mapSet s.gauges name value, version := s.version + 1 }

/-- Go `(*MemStorage).UpdateCounter`: ctx check, then
`s.counters[name] += value` (reading zero when absent, wrapping as `int64`)
and a version bump under the write lock. -/
def MemStorage.updateCounter (cancelled : Bool) (s : MemStorage) (name : String)
    (value : Int) : Except GoErr MemStorage :=
  if cancelled then .error ctxCanceledErr
  else .ok { s with
    counters := mapSet s.counters name (wrap64 (mapGetD s.counters name 0 + value)),
    version := s.version + 1 }

/-- The pointer value returned by `GetGauges`/`GetCounters`: always the one
live map object allocated in `NewMemStorage` (see the section comment). -/
inductive LiveRef : Type
  | live
deriving DecidableEq

/-- Go `(*MemStorage).GetGauges`: ctx check, then return the cached pointer
(`*cached.(*map[string]float64)`), which is the live map. -/
def MemStorage.getGauges (cancelled : Bool) (_s : MemStorage) :
    Except GoErr LiveRef :=
  if cancelled then .error ctxCanceledErr else .ok .live

/-- Go `(*MemStorage).GetCounters`, same structure as `GetGauges`. -/
def MemStorage.getCounters (cancelled : Bool) (_s : MemStorage) :
    Except GoErr LiveRef :=
  if cancelled then .error ctxCanceledErr else .ok .live

/-- Dereference a gauge-map pointer in a given state: the pointer denotes
the live gauges map, so the read observes the state at read time. -/
def MemStorage.derefGauges (s : MemStorage) : LiveRef → List (String × F64)
  | .live => s.gauges

/-- Dereference a counter-map pointer in a given state. -/
def MemStorage.derefCounters (s : MemStorage) : LiveRef → List (String × Int)
  | .live => s.counters

/-- Go `(*MemStorage).Save`: ctx check, then a no-op. -/
def MemStorage.save (cancelled : Bool) (s : MemStorage) : Except GoErr MemStorage :=
  if cancelled then .error ctxCanceledErr else .ok s

/-! ## Metric model (internal/model/metrics.go) -/

/-- The wire record `model.Metrics`: `ID`, `MType`, optional `Delta`
(pointer to `int64`), optional `Value` (pointer to `float64`), and the
optional `Hash` string. -/
structure Metrics where
  id : String
  mtype : String
  delta : Option Int
  value : Option F64
  hashField : String
deriving DecidableEq

/-- The constant `model.Gauge`. -/
def gaugeType : String := "gauge"

/-- The constant `model.Counter`. -/
def counterType : String := "counter"

/-! ## Service layer (internal/service/metricsservice.go)

The service is generic over `repository.Storage`; every server-side claim
below exercises it over `MemStorage`, the backend the claims cite, so the
embedding instantiates the storage to `MemStorage` (whose `Save` is the
ctx-checked no-op). -/

/-- The dynamic value passed as `any` to `UpdateMetric` (the handlers pass
either a `float64` or an `int64`). -/
inductive GoVal : Type
  | f (x : F64)
  | i (n : Int)
deriving DecidableEq

/-- Go `(*MetricsService).UpdateMetric` over `MemStorage`: ctx check, then
a type switch writing through the storage — the source drops the error
returned by `UpdateGauge`/`UpdateCounter` (the call result is not bound),
leaving the store unchanged when the write failed — then `storage.Save`,
whose error is checked. -/
def serviceUpdateMetric (cancelled : Bool) (st : MemStorage) (metricType : String)
    (metricName : String) (metricValue : GoVal) : Except GoErr MemStorage :=
  if cancelled then .error ctxCanceledErr
  else if metricType = gaugeType then
    match metricValue with
    | .f v =>
        let st1 := ((st.updateGauge cancelled metricName v).toOption).getD st
        st1.save cancelled
    | _ => .error "invalid value"
  else if metricType = counterType then
    match metricValue with
    | .i v =>
        let st1 := ((st.updateCounter cancelled metricName v).toOption).getD st
        st1.save cancelled
    | _ => .error "invalid value"
  else .error "invalid metric type"

/-- Go `(*MetricsService).GetMetricValue` over `MemStorage`: ctx check,
then a lookup in the counters or gauges map with `ErrMetricNotFound` on a
missing key.  `GetCounters`/`GetGauges` return the live map, whose contents
in the current state are `st.counters`/`st.gauges`. -/
def serviceGetMetricValue (cancelled : Bool) (st : MemStorage) (metricType : String)
    (metricName : String) : Except GoErr GoVal :=
  if cancelled then .error ctxCanceledErr
  else if metricType = counterType then
    match mapGet? st.counters metricName with
    | some v => .ok (.i v)
    | none => .error "metric not found"
  else if metricType = gaugeType then
    match mapGet? st.gauges metricName with
    | some v => .ok (.f v)
    | none => .error "metric not found"
  else .error "invalid metric type"

/-- The `for` loop of `(*MetricsService).UpdateMetricsBatch`: each record
is written through the storage, stopping at the first invalid record or
storage error. -/
def serviceBatchLoop (cancelled : Bool) (st : MemStorage) :
    List Metrics → Except GoErr MemStorage
  | [] => .ok st
  | m :: rest =>
      let step : Except GoErr MemStorage :=
        if m.mtype = gaugeType then
          match m.value with
          | none => .error "gauge metric value is nil"
          | some v => st.updateGauge cancelled m.id v
        else if m.mtype = counterType then
          match m.delta with
          | none => .error "counter metric delta is nil"
          | some d => st.updateCounter cancelled m.id d
        else .error "invalid metric type"
      match step with
      | .error e => .error e
      | .ok st1 => serviceBatchLoop cancelled st1 rest

/-- Go `(*MetricsService).UpdateMetricsBatch` over `MemStorage`:
`MemStorage` does not implement the optional `batchStorage` interface, so
after the ctx check the sequential fallback loop runs. -/
def serviceUpdateMetricsBatch (cancelled : Bool) (st : MemStorage)
    (metrics : List Metrics) : Except GoErr MemStorage :=
  if cancelled then .error ctxCanceledErr
  else serviceBatchLoop cancelled st metrics

/-! ## Update sequences (for the accumulation claims)

A caller applying a sequence of `UpdateCounter` (resp. `UpdateGauge`) calls
to one name, as in the spec scenario `d1, …, dn` applied to `x`. -/

/-- Apply a sequence of `UpdateCounter` calls for name `x` with the given
deltas, threading the `Except` as a Go caller threads the returned error. -/
def applyCounterUpdates (cancelled : Bool) (st : MemStorage) (x : String) :
    List Int → Except GoErr MemStorage
  | [] => .ok st
  | d :: ds =>
      match st.updateCounter cancelled x d with
      | .error e => .error e
      | .ok s1 => applyCounterUpdates cancelled s1 x ds

/-- Apply a sequence of `UpdateGauge` calls for name `x` with the given
values. -/
def applyGaugeUpdates (cancelled : Bool) (st : MemStorage) (x : String) :
    List F64 → Except GoErr MemStorage
  | [] => .ok st
  | v :: vs =>
      match st.updateGauge cancelled x v with
      | .error e => .error e
      | .ok s1 => applyGaugeUpdates cancelled s1 x vs

/-- Build the batch records `[(x, counter, d) | d ∈ ds]` sent to the batch
update path. -/
def counterRecords (x : String) (ds : List Int) : List Metrics :=
  ds.map (fun d => { id := x, mtype := counterType, delta := some d,
                     value := none, hashField := "" })

/-! ## DBStorage counter upsert (unnamed part_012, retry-wrapped version)

`DBStorage.UpdateCounter` executes
`INSERT INTO counters (name, value) VALUES ($1, $2)
 ON CONFLICT (name) DO UPDATE SET value = counters.value + $2`.
The `counters` table (`name` primary key, `value bigint`) is modelled as an
association list; the upsert inserts the delta for a fresh name and adds it
to the stored value for an existing one.  PostgreSQL `bigint` addition does
not wrap: it raises `numeric_value_out_of_range`, modelled as an error. -/

def dbUpdateCounter (table : List (String × Int)) (name : String) (value : Int) :
    Except GoErr (List (String × Int)) :=
  let newVal := mapGetD table name 0 + value
  if isInt64 newVal then .ok (mapSet table name newVal)
  else .error "bigint out of range"

/-- Apply a sequence of SQL counter upserts to the `counters` table. -/
def dbApplyCounterUpdates (table : List (String × Int)) (x : String) :
    List Int → Except GoErr (List (String × Int))
  | [] => .ok table
  | d :: ds =>
      match dbUpdateCounter table x d with
      | .error e => .error e
      | .ok t1 => dbApplyCounterUpdates t1 x ds

/-! ## FileStorage (internal/repository/filestorage.go)

`FileStorage` embeds a `MemStorage` and adds a path, a sync-save flag
(`interval == 0`) and its own `sync.RWMutex` field `mu`.  The mutex is
modelled explicitly because `UpdateGauge`/`UpdateCounter` acquire `f.mu`
and then call `saveMetrics`, which acquires `f.mu` again; a Go
`sync.RWMutex` is not reentrant, so the second `Lock()` on a mutex the
same goroutine already holds blocks forever.  An operation therefore
either finishes (`ok`/`ctxErr`) or never returns (`deadlock`).  The target
file contents are part of the state; `os.CreateTemp`, `Encode` and
`os.Rename` are modelled as succeeding, which is the best case for the
claim under scrutiny. -/

structure FileStorage where
  mem : MemStorage
  syncSave : Bool
  muHeld : Bool
  fileData : Option (List (String × F64) × List (String × Int))
deriving DecidableEq

/-- Go `NewFileStorage(path, interval, restore)` with `restore = false`:
a fresh `MemStorage`, `syncSave = (interval == 0)`, mutex free, target file
not yet written. -/
def newFileStorage (interval : Nat) : FileStorage :=
  { mem := newMemStorage, syncSave := interval = 0, muHeld := false,
    fileData := none }

/-- Outcome of a `FileStorage` operation: normal return, `ctx.Err()`, or a
self-deadlock (the call never returns). -/
inductive FSOutcome : Type
  | ok (fs : FileStorage)
  | ctxErr
  | deadlock
deriving DecidableEq

/-- Go `(*FileStorage).saveMetrics`: acquires `f.mu`, snapshots the maps
and atomically renames the temp file over the target.  If the caller
already holds `f.mu`, the `Lock()` blocks forever. -/
def FileStorage.saveMetrics (fs : FileStorage) : FSOutcome :=
  if fs.muHeld then .deadlock
  else .ok { fs with fileData := some (fs.mem.gauges, fs.mem.counters) }

/-- Go `(*FileStorage).UpdateGauge`: ctx check, `f.mu.Lock()`, the memory
update, then — in sync-save mode — `f.saveMetrics()` while still holding
`f.mu` (the `defer f.mu.Unlock()` has not run yet). -/
def FileStorage.updateGauge (cancelled : Bool) (fs : FileStorage) (name : String)
    (value : F64) : FSOutcome :=
  if cancelled then .ctxErr
  else if fs.muHeld then .deadlock
  else
    let fs1 : FileStorage :=
      { fs with
        muHeld := true,
        mem := ((fs.mem.updateGauge cancelled name value).toOption).getD fs.mem }
    if fs1.syncSave then
      match fs1.saveMetrics with
      | .ok fs2 => .ok { fs2 with muHeld := false }
      | .ctxErr => .ctxErr
      | .deadlock => .deadlock
    else .ok { fs1 with muHeld := false }

/-- Go `(*FileStorage).UpdateCounter`, same structure as `UpdateGauge`. -/
def FileStorage.updateCounter (cancelled : Bool) (fs : FileStorage) (name : String)
    (value : Int) : FSOutcome :=
  if cancelled then .ctxErr
  else if fs.muHeld then .deadlock
  else
    let fs1 : FileStorage :=
      { fs with
        muHeld := true,
        mem := ((fs.mem.updateCounter cancelled name value).toOption).getD fs.mem }
    if fs1.syncSave then
      match fs1.saveMetrics with
      | .ok fs2 => .ok { fs2 with muHeld := false }
      | .ctxErr => .ctxErr
      | .deadlock => .deadlock
    else .ok { fs1 with muHeld := false }

/-! ## Hash package (pkg/hash/hash.go)

`ComputeHash` and `ValidateHash` call the Go standard library
`crypto/hmac` over `crypto/sha256` with `encoding/hex`.  Those library
primitives are implemented here directly (FIPS 180-4 SHA-256 and RFC 2104
HMAC over byte lists, bytes as `Nat` below 256, 32-bit words reduced with
`m32` at every operation) so that the two repository functions stay fully
executable.  Strings are converted to bytes by codepoint, which agrees
with Go `[]byte(s)` (UTF-8) on the ASCII keys and hex digests involved. -/

/-- Reduce to a 32-bit word, the implicit truncation of Go `uint32`. -/
def m32 (x : Nat) : Nat := x % 4294967296

/-- Right rotation of a 32-bit word. -/
def rotr32 (x n : Nat) : Nat := m32 ((x >>> n) ||| (x <<< (32 - n)))

/-- SHA-256 `Ch(x, y, z)`. -/
def shaCh (x y z : Nat) : Nat := (x &&& y) ^^^ ((x ^^^ 4294967295) &&& z)

/-- SHA-256 `Maj(x, y, z)`. -/
def shaMaj (x y z : Nat) : Nat := (x &&& y) ^^^ (x &&& z) ^^^ (y &&& z)

/-- SHA-256 `Σ0`. -/
def bigSigma0 (x : Nat) : Nat := rotr32 x 2 ^^^ rotr32 x 13 ^^^ rotr32 x 22

/-- SHA-256 `Σ1`. -/
def bigSigma1 (x : Nat) : Nat := rotr32 x 6 ^^^ rotr32 x 11 ^^^ rotr32 x 25

/-- SHA-256 `σ0`. -/
def smallSigma0 (x : Nat) : Nat := rotr32 x 7 ^^^ rotr32 x 18 ^^^ (x >>> 3)

/-- SHA-256 `σ1`. -/
def smallSigma1 (x : Nat) : Nat := rotr32 x 17 ^^^ rotr32 x 19 ^^^ (x >>> 10)

/-- The 64 SHA-256 round constants (FIPS 180-4, in decimal). -/
def sha256K : List Nat :=
  [1116352408, 1899447441, 3049323471, 3921009573, 961987163,
   1508970993, 2453635748, 2870763221, 3624381080, 310598401,
   607225278, 1426881987, 1925078388, 2162078206, 2614888103,
   3248222580, 3835390401, 4022224774, 264347078, 604807628,
   770255983, 1249150122, 1555081692, 1996064986, 2554220882,
   2821834349, 2952996808, 3210313671, 3336571891, 3584528711,
   113926993, 338241895, 666307205, 773529912, 1294757372,
   1396182291, 1695183700, 1986661051, 2177026350, 2456956037,
   2730485921, 2820302411, 3259730800, 3345764771, 3516065817,
   3600352804, 4094571909, 275423344, 430227734, 506948616,
   659060556, 883997877, 958139571, 1322822218, 1537002063,
   1747873779, 1955562222, 2024104815, 2227730452, 2361852424,
   2428436474, 2756734187, 3204031479, 3329325298]

/-- The eight SHA-256 working registers. -/
structure Hash8 where
  a : Nat
  b : Nat
  c : Nat
  d : Nat
  e : Nat
  f : Nat
  g : Nat
  h : Nat
deriving DecidableEq

/-- The SHA-256 initial hash value (FIPS 180-4, in decimal). -/
def sha256H0 : Hash8 :=
  ⟨1779033703, 3144134277, 1013904242, 2773480762,
   1359893119, 2600822924, 528734635, 1541459225⟩

/-- Group a byte list into big-endian 32-bit words. -/
def bytesToWords : List Nat → List Nat
  | b0 :: b1 :: b2 :: b3 :: rest =>
      (b0 * 16777216 + b1 * 65536 + b2 * 256 + b3) :: bytesToWords rest
  | _ => []

/-- Extend the 16-word message block to the 64-word schedule (48 steps). -/
def scheduleExtend (ws : List Nat) : Nat → List Nat
  | 0 => ws
  | n + 1 =>
      scheduleExtend
        (ws ++ [m32 (smallSigma1 (ws.getD (ws.length - 2) 0)
                     + ws.getD (ws.length - 7) 0
                     + smallSigma0 (ws.getD (ws.length - 15) 0)
                     + ws.getD (ws.length - 16) 0)]) n

/-- One SHA-256 compression round for round constant and schedule word. -/
def shaRound (s : Hash8) (kw : Nat × Nat) : Hash8 :=
  let t1 := m32 (s.h + bigSigma1 s.e + shaCh s.e s.f s.g + kw.1 + kw.2)
  let t2 := m32 (bigSigma0 s.a + shaMaj s.a s.b s.c)
  ⟨m32 (t1 + t2), s.a, s.b, s.c, m32 (s.d + t1), s.e, s.f, s.g⟩

/-- Compress one 64-byte block into the running hash value. -/
def compressBlock (H : Hash8) (block : List Nat) : Hash8 :=
  let ws := scheduleExtend (bytesToWords block) 48
  let s := (sha256K.zip ws).foldl shaRound H
  ⟨m32 (H.a + s.a), m32 (H.b + s.b), m32 (H.c + s.c), m32 (H.d + s.d),
   m32 (H.e + s.e), m32 (H.f + s.f), m32 (H.g + s.g), m32 (H.h + s.h)⟩

/-- Fold the compression function over the 64-byte blocks of `l`.  The
fuel argument only bounds the recursion; any fuel at least `l.length`
covers every block because each step consumes 64 bytes. -/
def processBlocks (H : Hash8) (l : List Nat) : Nat → Hash8
  | 0 => H
  | fuel + 1 =>
      match l with
      | [] => H
      | _ => processBlocks (compressBlock H (l.take 64)) (l.drop 64) fuel

/-- Big-endian bytes of a 64-bit length value. -/
def be8 (n : Nat) : List Nat :=
  [n >>> 56 % 256, n >>> 48 % 256, n >>> 40 % 256, n >>> 32 % 256,
   n >>> 24 % 256, n >>> 16 % 256, n >>> 8 % 256, n % 256]

/-- Big-endian bytes of a 32-bit word. -/
def be4 (n : Nat) : List Nat :=
  [n >>> 24 % 256, n >>> 16 % 256, n >>> 8 % 256, n % 256]

/-- SHA-256 padding: a `0x80` byte, zeros to 56 mod 64, then the bit
length as eight big-endian bytes. -/
def sha256Pad (msg : List Nat) : List Nat :=
  msg ++ 128 :: List.replicate ((119 - msg.length % 64) % 64) 0
      ++ be8 (8 * msg.length)

/-- SHA-256 of a byte list. -/
def sha256 (msg : List Nat) : List Nat :=
  let padded := sha256Pad msg
  let Hf := processBlocks sha256H0 padded padded.length
  be4 Hf.a ++ be4 Hf.b ++ be4 Hf.c ++ be4 Hf.d
    ++ be4 Hf.e ++ be4 Hf.f ++ be4 Hf.g ++ be4 Hf.h

/-- HMAC-SHA256 (RFC 2104, block size 64): hash an over-long key, zero-pad
to the block size, then the nested inner/outer hashes. -/
def hmacSha256 (key msg : List Nat) : List Nat :=
  let k1 := if 64 < key.length then sha256 key else key
  let k0 := k1 ++ List.replicate (64 - k1.length) 0
  sha256 ((k0.map (fun b => b ^^^ 92)) ++ sha256 ((k0.map (fun b => b ^^^ 54)) ++ msg))

/-- Lower-case hex digit. -/
def hexDigit (n : Nat) : Char :=
  if n < 10 then Char.ofNat (48 + n) else Char.ofNat (87 + n)

/-- Go `hex.EncodeToString`. -/
def hexEncode (bs : List Nat) : String :=
  String.mk (bs.foldr (fun b acc => hexDigit (b / 16) :: hexDigit (b % 16) :: acc) [])

/-- Go `[]byte(s)` for the ASCII strings in play: codepoints as bytes. -/
def strBytes (s : String) : List Nat := s.data.map Char.toNat

/-- Go `hash.ComputeHash(data, key)`: empty key yields the empty string,
otherwise the hex HMAC-SHA256 of the data under the key. -/
def ComputeHash (data : List Nat) (key : String) : String :=
  if key = "" then "" else hexEncode (hmacSha256 (strBytes key) data)

/-- Go `hmac.Equal`: constant-time comparison of the two byte slices,
extensionally plain equality of the strings. -/
def hmacEqual (x y : String) : Bool := x == y

/-- Go `hash.ValidateHash(data, key, receivedHash)`: empty key always
validates, empty received hash never does, otherwise recompute and
compare. -/
def ValidateHash (data : List Nat) (key : String) (receivedHash : String) : Bool :=
  if key = "" then true
  else if receivedHash = "" then false
  else hmacEqual (ComputeHash data key) receivedHash

/-! ## HTTP handlers (internal/handler/metrichandler.go)

The handlers are modelled after JSON decoding: their input is the decoded
`model.Metrics` record (list of records for the batch handler), their
output the HTTP status, the response body where one is written, and the
resulting store.  The audit-context bookkeeping only appends ids to a
per-request list and is irrelevant to every claim here, so it is not part
of the state. -/

/-- Result of `UpdateMetricJSONHandler`: status code, echoed body (present
only on 200), the `HashSHA256` response header when signing is on, and the
store after the request. -/
structure JSONUpdateResult where
  status : Nat
  body : Option Metrics
  store : MemStorage
deriving DecidableEq

/-- Go `(*Handler).UpdateMetricJSONHandler` (body already decoded):
validates id/type/payload shape, writes through the service, re-reads the
current value with `GetMetricValue` and echoes it in the response record
(for a counter this is the accumulated total), then answers 200. -/
def updateMetricJSONHandler (cancelled : Bool) (st : MemStorage) (metric : Metrics) :
    JSONUpdateResult :=
  if metric.id = "" ∨ metric.mtype = "" then
    { status := 400, body := none, store := st }
  else
    let written : Except GoErr MemStorage :=
      if metric.mtype = gaugeType then
        match metric.value with
        | none => .error "Value is required for gauge"
        | some v => serviceUpdateMetric cancelled st metric.mtype metric.id (.f v)
      else if metric.mtype = counterType then
        match metric.delta with
        | none => .error "Delta is required for counter"
        | some d => serviceUpdateMetric cancelled st metric.mtype metric.id (.i d)
      else .error "Invalid metric type"
    match written with
    | .error _ => { status := 400, body := none, store := st }
    | .ok st1 =>
        let echoed : Metrics :=
          match serviceGetMetricValue cancelled st1 metric.mtype metric.id with
          | .ok (.f v) =>
              if metric.mtype = gaugeType then { metric with value := some v } else metric
          | .ok (.i v) =>
              if metric.mtype = counterType then { metric with delta := some v } else metric
          | .error _ => metric
        { status := 200, body := some echoed, store := st1 }

/-- Go `(*Handler).UpdateMetricsBatchHandler` (body already decoded): a
single loop that validates each record and immediately writes it through
`metricsService.UpdateMetric`, answering 400 as soon as one record is
invalid — records already written stay written. -/
def updateMetricsBatchHandler (cancelled : Bool) (st : MemStorage) :
    List Metrics → Nat × MemStorage
  | [] => (200, st)
  | m :: rest =>
      if m.id = "" ∨ m.mtype = "" then (400, st)
      else if m.mtype = gaugeType then
        match m.value with
        | none => (400, st)
        | some v =>
            match serviceUpdateMetric cancelled st m.mtype m.id (.f v) with
            | .error _ => (400, st)
            | .ok st1 => updateMetricsBatchHandler cancelled st1 rest
      else if m.mtype = counterType then
        match m.delta with
        | none => (400, st)
        | some d =>
            match serviceUpdateMetric cancelled st m.mtype m.id (.i d) with
            | .error _ => (400, st)
            | .ok st1 => updateMetricsBatchHandler cancelled st1 rest
      else (400, st)

/-- Statement-side predicate (for the batch-handler theorems): the record
passes every validation the batch handler applies — non-empty id and type,
a value for a gauge, a delta for a counter. -/
def validRecord (m : Metrics) : Bool :=
  if m.id = "" ∨ m.mtype = "" then false
  else if m.mtype = gaugeType then m.value.isSome
  else if m.mtype = counterType then m.delta.isSome
  else false

/-- Statement-side function (for the batch-handler theorems): the store
effect of one valid record, as performed by `UpdateMetric` over
`MemStorage` with a live context. -/
def writeRecord (st : MemStorage) (m : Metrics) : MemStorage :=
  if m.mtype = gaugeType then
    match m.value with
    | some v => { st with gauges := mapSet st.gauges m.id v, version := st.version + 1 }
    | none => st
  else
    match m.delta with
    | some d =>
        { st with
          counters := mapSet st.counters m.id (wrap64 (mapGetD st.counters m.id 0 + d)),
          version := st.version + 1 }
    | none => st

/-! ## DBStorage retry policy (unnamed part_012, retry-wrapped version)

`retryOnError(ctx, operation)` iterates over the fixed interval list
`[1s, 3s, 5s]`; in each iteration it calls `operation()`, returns on
success, returns immediately on a non-retryable error, and otherwise — only
while `i+1 < len(retryIntervals)` — waits the current interval (or aborts
with `ctx.Err()` if the context is cancelled during the wait).  After the
loop one final unconditional `operation()` call decides the result.  The
closure `operation` may behave differently on each call, so it is modelled
as a function of the attempt number; the context is modelled by which wait
(0-based) cancellation fires in, if any. -/

/-- An error returned by a SQL operation: a PostgreSQL error with its
five-character SQLSTATE code (matched by `errors.As` against
`*pgconn.PgError`), or any other error. -/
inductive SqlErr : Type
  | pg (code : String)
  | other (msg : String)
deriving DecidableEq

/-- Library `pgerrcode.IsConnectionException`: the seven class-08 codes. -/
def isConnectionException (code : String) : Bool :=
  code = "08000" ∨ code = "08003" ∨ code = "08006" ∨ code = "08001" ∨
    code = "08004" ∨ code = "08007" ∨ code = "08P01"

/-- Go `isRetryableError`: a `*pgconn.PgError` whose code is a connection
exception; anything else is not retryable. -/
def isRetryableError : SqlErr → Bool
  | .pg code => isConnectionException code
  | .other _ => false

/-- Outcome of `retryOnError`. -/
inductive RetryResult : Type
  | success
  | opErr (e : SqlErr)
  | ctxCanceled
deriving DecidableEq

/-- The `for i, interval := range retryIntervals` loop of `retryOnError`,
followed by the final unconditional `operation()` call.  `op n` is the
result of the `n`-th call of `operation` (`none` = success); `cancel w`
tells whether the context is cancelled during the `w`-th executed wait.
Returns the result together with the number of `operation()` calls made
and the list of waits (in seconds) actually performed. -/
def retryLoop (cancel : Nat → Bool) (op : Nat → Option SqlErr) :
    List (Nat × Nat) → Nat → List Nat → RetryResult × Nat × List Nat
  | [], attempts, waits =>
      match op attempts with
      | none => (.success, attempts + 1, waits)
      | some e => (.opErr e, attempts + 1, waits)
  | (i, interval) :: rest, attempts, waits =>
      match op attempts with
      | none => (.success, attempts + 1, waits)
      | some e =>
          if ¬ isRetryableError e then (.opErr e, attempts + 1, waits)
          else if i + 1 < 3 then
            if cancel waits.length then (.ctxCanceled, attempts + 1, waits)
            else retryLoop cancel op rest (attempts + 1) (waits ++ [interval])
          else retryLoop cancel op rest (attempts + 1) waits

/-- Go `retryOnError` with `retryIntervals = [1s, 3s, 5s]`. -/
def retryOnError (cancel : Nat → Bool) (op : Nat → Option SqlErr) :
    RetryResult × Nat × List Nat :=
  retryLoop cancel op [(0, 1), (1, 3), (2, 5)] 0 []

/-! ## Agent batch sender (internal/agent/sender.go, unnamed part_023)

`SendMetricsBatch` performs a first `doSendMetricsBatch` attempt; on
success it returns nil, and when the first attempt's error message contains
`"400"` it also returns nil (poison payload, dropped).  Otherwise it
iterates over `[1s, 3s, 5s]`: each iteration waits (aborting with
`ctx.Err()` on cancellation during the wait) and re-attempts, returning nil
on success; after the loop the last error is returned.  The transport is
modelled as the error message of each attempt (`none` = HTTP 200); a
non-200 status `n` produces the message `unexpected status code: n` as in
`doSendMetricsBatch`. -/

/-- Substring test on char lists, the semantics of Go `strings.Contains`. -/
def charsContain (pat : List Char) : List Char → Bool
  | [] => pat.isEmpty
  | c :: rest => pat.isPrefixOf (c :: rest) || charsContain pat rest

/-- Go `strings.Contains(s, pat)`. -/
def strContains (s pat : String) : Bool := charsContain pat.data s.data

/-- The error message `doSendMetricsBatch` builds for a non-200 status. -/
def statusErrMsg (code : Nat) : String := "unexpected status code: " ++ toString code

/-- Outcome of `SendMetricsBatch`: nil, an error, or `ctx.Err()`. -/
inductive SendResult : Type
  | ok
  | err (msg : String)
  | ctxCanceled
deriving DecidableEq

/-- The retry `for` loop of `SendMetricsBatch`.  `attempt n` is the error
message of the `n`-th `doSendMetricsBatch` call (`none` = success);
`cancel w` tells whether the context is cancelled during the `w`-th wait.
Also returns the number of attempts made. -/
def sendRetryLoop (cancel : Nat → Bool) (attempt : Nat → Option String) :
    List Nat → Nat → Nat → String → SendResult × Nat
  | [], attempts, _, lastMsg => (.err lastMsg, attempts)
  | _interval :: rest, attempts, waitIdx, _lastMsg =>
      if cancel waitIdx then (.ctxCanceled, attempts)
      else
        match attempt attempts with
        | none => (.ok, attempts + 1)
        | some msg => sendRetryLoop cancel attempt rest (attempts + 1) (waitIdx + 1) msg

/-- Go `(*Sender).SendMetricsBatch` (first attempt, the poison-400 check,
then the retry loop over `[1s, 3s, 5s]`). -/
def sendMetricsBatch (cancel : Nat → Bool) (attempt : Nat → Option String) :
    SendResult × Nat :=
  match attempt 0 with
  | none => (.ok, 1)
  | some msg =>
      if strContains msg "400" then (.ok, 1)
      else sendRetryLoop cancel attempt [1, 3, 5] 1 0 msg

/-! ## Trusted-subnet middleware (unnamed part_025)

`TrustedSubnetMiddleware(trustedSubnet)` passes every request through when
the subnet string is empty or fails `net.ParseCIDR`; otherwise it reads
`X-Real-IP`, answers 403 when the header is missing/empty, unparseable by
`net.ParseIP`, or outside the subnet, and invokes the wrapped handler only
for an in-subnet address.

The standard library is modelled after its current implementation.
`net.ParseIP` delegates to `netip.ParseAddr` — the first `.`/`:`/`%` of
the string dispatches to the dotted-quad IPv4 parser, the IPv6 parser
(1–4+ hex-digit groups bounded by value 0xFFFF, one optional `::`
compression, an optional embedded dotted-quad tail, no zone), or failure —
and always yields the 16-byte representation (dotted quads come back
IPv4-mapped).  `(*net.IPNet).Contains` first converts the candidate with
`To4`, so both plain and IPv4-mapped addresses can fall inside an IPv4
network while any other 16-byte address fails the length comparison.
`net.ParseCIDR` parses the prefix length with `dtoi` — decimal digits,
leading zeros allowed, at most the address bit length.  The network
strings this repository configures are IPv4, and the model's `parseCIDR`
covers exactly those (an IPv6 network string falls outside the theorem's
hypothesis). -/

/-- Split a character list at a separator character (Go `strings.Split`
for a one-character separator). -/
def splitOnChar (sep : Char) : List Char → List (List Char)
  | [] => [[]]
  | c :: rest =>
      let r := splitOnChar sep rest
      if c = sep then [] :: r
      else
        match r with
        | [] => [[c]]
        | h :: t => (c :: h) :: t

/-- Decimal value of a digit list (only applied to all-digit lists). -/
def digitsToNat (l : List Char) : Nat :=
  l.foldl (fun acc c => acc * 10 + (c.toNat - 48)) 0

/-- Parse one dotted-quad octet: one to three digits, value at most 255,
no leading zero (as `netip` enforces). -/
def parseOctet (l : List Char) : Option Nat :=
  if l = [] then none
  else if 3 < l.length then none
  else if ¬ l.all Char.isDigit then none
  else if 1 < l.length ∧ l.headD ' ' = '0' then none
  else
    let v := digitsToNat l
    if v ≤ 255 then some v else none

/-- The dotted-quad IPv4 parser of `netip` (`parseIPv4`), as a 32-bit
value: exactly four octets separated by dots. -/
def parseIPv4Chars (l : List Char) : Option Nat :=
  match splitOnChar '.' l with
  | [p0, p1, p2, p3] =>
      match parseOctet p0, parseOctet p1, parseOctet p2, parseOctet p3 with
      | some a, some b, some c, some d =>
          some (a * 16777216 + b * 65536 + c * 256 + d)
      | _, _, _, _ => none
  | _ => none

/-- Value of one hex digit, `none` for a non-hex character. -/
def hexCharVal (c : Char) : Option Nat :=
  if '0' ≤ c ∧ c ≤ '9' then some (c.toNat - 48)
  else if 'a' ≤ c ∧ c ≤ 'f' then some (c.toNat - 87)
  else if 'A' ≤ c ∧ c ≤ 'F' then some (c.toNat - 55)
  else none

/-- Whether a character is a hex digit (either case). -/
def isHexChar (c : Char) : Bool := (hexCharVal c).isSome

/-- Value of a hex-digit run.  `netip` fails as soon as the running value
exceeds 0xFFFF; since the value grows monotonically digit by digit, that
is equivalent to a bound on the final value, checked at the call site. -/
def hexGroupVal (l : List Char) : Nat :=
  l.foldl (fun acc c => acc * 16 + (hexCharVal c).getD 0) 0

/-- The 16-byte IPv4-mapped form `::ffff:a.b.c.d` in which `netip` (and
hence `net.ParseIP`) returns a dotted-quad address. -/
def v4MappedBytes (v : Nat) : List Nat :=
  [0, 0, 0, 0, 0, 0, 0, 0, 0, 0, 255, 255] ++ be4 v

/-- The group loop of `netip`'s `parseIPv6` (`for i < 16`).  State: the
bytes accumulated so far, the byte position of the `::` when one was seen,
and the unconsumed characters; returns those on loop exit (by the `i < 16`
guard or a `break`), or `none` on a parse error.  Each productive
iteration consumes one hex group of value at most 0xFFFF (or a trailing
embedded dotted quad, legal only right after a `::` or in the last four
bytes) and appends two (or four) bytes, so the fuel — 9 from the top —
never runs out before the guard stops the loop. -/
def parseV6Loop (s : List Char) (bytes : List Nat) (ellipsis : Option Nat) :
    Nat → Option (List Nat × Option Nat × List Char)
  | 0 => none
  | fuel + 1 =>
      if 16 ≤ bytes.length then some (bytes, ellipsis, s)
      else
        let digits := s.takeWhile isHexChar
        let rest := s.dropWhile isHexChar
        if digits = [] then none
        else if 65535 < hexGroupVal digits then none
        else
          match rest with
          | '.' :: _ =>
              if ellipsis = none ∧ bytes.length ≠ 12 then none
              else if 16 < bytes.length + 4 then none
              else
                match parseIPv4Chars s with
                | none => none
                | some v => some (bytes ++ be4 v, ellipsis, [])
          | [] =>
              some (bytes ++ [hexGroupVal digits / 256, hexGroupVal digits % 256],
                ellipsis, [])
          | ':' :: [] => none
          | ':' :: ':' :: rest2 =>
              if ellipsis.isSome then none
              else
                let bytes1 := bytes ++ [hexGroupVal digits / 256, hexGroupVal digits % 256]
                if rest2 = [] then some (bytes1, some bytes1.length, [])
                else parseV6Loop rest2 bytes1 (some bytes1.length) fuel
          | ':' :: rest2 =>
              parseV6Loop rest2
                (bytes ++ [hexGroupVal digits / 256, hexGroupVal digits % 256])
                ellipsis fuel
          | _ => none

/-- The post-loop checks of `parseIPv6`: the whole string must be
consumed; fewer than 16 bytes require a `::` to expand with zeros at its
position; exactly 16 bytes forbid a `::` (it must stand for at least one
zero group). -/
def parseV6Finish : Option (List Nat × Option Nat × List Char) → Option (List Nat)
  | none => none
  | some (bytes, ellipsis, residual) =>
      if residual ≠ [] then none
      else if bytes.length < 16 then
        match ellipsis with
        | none => none
        | some e =>
            some (bytes.take e ++ List.replicate (16 - bytes.length) 0 ++ bytes.drop e)
      else if ellipsis.isSome then none
      else some bytes

/-- The IPv6 parser of `netip` (`parseIPv6`), with the leading-`::`
special cases handled up front as in the source. -/
def parseIPv6Chars (s : List Char) : Option (List Nat) :=
  match s with
  | ':' :: ':' :: rest =>
      if rest = [] then some (List.replicate 16 0)
      else parseV6Finish (parseV6Loop rest [] (some 0) 9)
  | _ => parseV6Finish (parseV6Loop s [] none 9)

/-- The dispatch scan of `netip.ParseAddr`: the first `.` selects the
IPv4 parser, the first `:` the IPv6 parser, a `%` (zone with missing
address, and `net.ParseIP` rejects every zoned address anyway) fails, and
a string with none of them fails. -/
def ipDispatch : List Char → Option Bool
  | [] => none
  | c :: rest =>
      if c = '.' then some true
      else if c = ':' then some false
      else if c = '%' then none
      else ipDispatch rest

/-- Library `net.ParseIP`: `netip.ParseAddr` plus the `As16` conversion —
the result is always the 16-byte representation. -/
def parseIP (s : String) : Option (List Nat) :=
  match ipDispatch s.data with
  | some true => (parseIPv4Chars s.data).map v4MappedBytes
  | some false => parseIPv6Chars s.data
  | none => none

/-- Library `(net.IP).To4`: a 4-byte address as is, a 16-byte IPv4-mapped
address reduced to its tail, anything else `nil`. -/
def ipTo4 : List Nat → Option Nat
  | [a, b, c, d] => some (a * 16777216 + b * 65536 + c * 256 + d)
  | [b0, b1, b2, b3, b4, b5, b6, b7, b8, b9, b10, b11, b12, b13, b14, b15] =>
      if b0 = 0 ∧ b1 = 0 ∧ b2 = 0 ∧ b3 = 0 ∧ b4 = 0 ∧ b5 = 0 ∧ b6 = 0 ∧ b7 = 0
          ∧ b8 = 0 ∧ b9 = 0 ∧ b10 = 255 ∧ b11 = 255 then
        some (b12 * 16777216 + b13 * 65536 + b14 * 256 + b15)
      else none
  | _ => none

/-- Parse the prefix length of a CIDR as `net.ParseCIDR` does via `dtoi`:
all characters decimal digits (leading zeros allowed), value at most the
IPv4 bit length 32. -/
def parsePrefixLen (l : List Char) : Option Nat :=
  if l = [] then none
  else if ¬ l.all Char.isDigit then none
  else
    let v := digitsToNat l
    if v ≤ 32 then some v else none

/-- An IPv4 network as returned by `net.ParseCIDR`: the masked base
address and the mask itself (both 4 bytes wide, held as 32-bit values). -/
structure IPNet where
  base : Nat
  mask : Nat
deriving DecidableEq

/-- Library `net.ParseCIDR` on the IPv4 network strings this repository
configures: the address part must be a dotted quad, the prefix length
passes `dtoi`, and the returned `*net.IPNet` holds `ip.Mask(mask)` and
the 4-byte mask. -/
def parseCIDR (s : String) : Option IPNet :=
  match splitOnChar '/' s.data with
  | [ipPart, lenPart] =>
      match parseIPv4Chars ipPart, parsePrefixLen lenPart with
      | some ip, some n =>
          let mask := (2 ^ n - 1) * 2 ^ (32 - n)
          some { base := ip &&& mask, mask := mask }
      | _, _ => none
  | _ => none

/-- Library `(*net.IPNet).Contains` for an IPv4 network: the candidate is
first reduced with `To4`; on success the masked comparison decides, and
otherwise the 16-byte candidate fails the length comparison against the
4-byte network number. -/
def ipNetContains (net : IPNet) (ipBytes : List Nat) : Bool :=
  match ipTo4 ipBytes with
  | some v => v &&& net.mask = net.base
  | none => false

/-- A request as seen by the middleware: the `X-Real-IP` header
(`r.Header.Get` yields the empty string when the header is absent). -/
structure GateRequest where
  xRealIP : Option String
deriving DecidableEq

/-- Outcome of the middleware: the wrapped handler is invoked, or the
request is rejected with 403 and the given message. -/
inductive GateOutcome : Type
  | handled
  | forbidden (msg : String)
deriving DecidableEq

/-- Go `TrustedSubnetMiddleware` applied to one request. -/
def trustedSubnetMiddleware (trustedSubnet : String) (req : GateRequest) :
    GateOutcome :=
  if trustedSubnet = "" then .handled
  else
    match parseCIDR trustedSubnet with
    | none => .handled
    | some ipNet =>
        let realIP := req.xRealIP.getD ""
        if realIP = "" then .forbidden "X-Real-IP header is required"
        else
          match parseIP realIP with
          | none => .forbidden "Invalid IP address in X-Real-IP header"
          | some ip =>
              if ipNetContains ipNet ip then .handled
              else .forbidden "IP address is not in trusted subnet"

/-! ## Agent collector (unnamed part_021, gopsutil version)

`Collect` copies the runtime memory statistics and a fresh random value
into the gauges map, increments the `pollCount` field and stores it under
`"PollCount"` in the counters map.  `CollectSystemMetrics` writes only
gauges.  `GetMetrics` returns copies of both maps.  The readings supplied
by the runtime and by gopsutil are inputs of each call. -/

/-- One `runtime.MemStats` reading plus the drawn `rand.Float64()`. -/
structure MemStatsSample where
  alloc : F64
  buckHashSys : F64
  frees : F64
  gcCPUFraction : F64
  gcSys : F64
  heapAlloc : F64
  heapIdle : F64
  heapInuse : F64
  heapObjects : F64
  heapReleased : F64
  heapSys : F64
  lastGC : F64
  lookups : F64
  mcacheInuse : F64
  mcacheSys : F64
  mspanInuse : F64
  mspanSys : F64
  mallocs : F64
  nextGC : F64
  numForcedGC : F64
  numGC : F64
  otherSys : F64
  pauseTotalNs : F64
  stackInuse : F64
  stackSys : F64
  sys : F64
  totalAlloc : F64
  randomValue : F64
deriving DecidableEq

/-- One gopsutil reading: `mem.VirtualMemory()` (total and free bytes,
absent on error) and `cpu.Percent(time.Second, true)` (per-core
percentages, absent on error). -/
structure SysSample where
  vmStat : Option (F64 × F64)
  cpuPercents : Option (List F64)
deriving DecidableEq

/-- The collector state: the two maps and the `pollCount` field. -/
structure Collector where
  gauges : List (String × F64)
  counters : List (String × Int)
  pollCount : Int
deriving DecidableEq

/-- Go `NewCollector`. -/
def newCollector : Collector := { gauges := [], counters := [], pollCount := 0 }

/-- Go `(*Collector).Collect` under its lock. -/
def Collector.collect (c : Collector) (m : MemStatsSample) : Collector :=
  let g := mapSet c.gauges "Alloc" m.alloc
  let g := mapSet g "BuckHashSys" m.buckHashSys
  let g := mapSet g "Frees" m.frees
  let g := mapSet g "GCCPUFraction" m.gcCPUFraction
  let g := mapSet g "GCSys" m.gcSys
  let g := mapSet g "HeapAlloc" m.heapAlloc
  let g := mapSet g "HeapIdle" m.heapIdle
  let g := mapSet g "HeapInuse" m.heapInuse
  let g := mapSet g "HeapObjects" m.heapObjects
  let g := mapSet g "HeapReleased" m.heapReleased
  let g := mapSet g "HeapSys" m.heapSys
  let g := mapSet g "LastGC" m.lastGC
  let g := mapSet g "Lookups" m.lookups
  let g := mapSet g "MCacheInuse" m.mcacheInuse
  let g := mapSet g "MCacheSys" m.mcacheSys
  let g := mapSet g "MSpanInuse" m.mspanInuse
  let g := mapSet g "MSpanSys" m.mspanSys
  let g := mapSet g "Mallocs" m.mallocs
  let g := mapSet g "NextGC" m.nextGC
  let g := mapSet g "NumForcedGC" m.numForcedGC
  let g := mapSet g "NumGC" m.numGC
  let g := mapSet g "OtherSys" m.otherSys
  let g := mapSet g "PauseTotalNs" m.pauseTotalNs
  let g := mapSet g "StackInuse" m.stackInuse
  let g := mapSet g "StackSys" m.stackSys
  let g := mapSet g "Sys" m.sys
  let g := mapSet g "TotalAlloc" m.totalAlloc
  let g := mapSet g "RandomValue" m.randomValue
  let pc := wrap64 (c.pollCount + 1)
  { gauges := g, counters := mapSet c.counters "PollCount" pc, pollCount := pc }

/-- Go `(*Collector).CollectSystemMetrics` under its lock: gauges only,
counters and `pollCount` untouched. -/
def Collector.collectSystemMetrics (c : Collector) (s : SysSample) : Collector :=
  let g :=
    match s.vmStat with
    | some (total, free) => mapSet (mapSet c.gauges "TotalMemory" total) "FreeMemory" free
    | none => c.gauges
  let g :=
    match s.cpuPercents with
    | some ps =>
        if 0 < ps.length then
          (ps.enum.foldl (fun acc pi =>
            mapSet acc ("CPUutilization" ++ toString (pi.1 + 1)) pi.2) g)
        else g
    | none => g
  { c with gauges := g }

/-- Go `(*Collector).GetMetrics`: copies of both maps; the collector state
is not modified (the returned maps are fresh copies, so callers cannot
alias the live maps either). -/
def Collector.getMetrics (c : Collector) :
    List (String × F64) × List (String × Int) :=
  (c.gauges, c.counters)

/-- Statement-side sample (for concrete collector runs): an all-zero
`runtime.MemStats` reading. -/
def zeroMemStats : MemStatsSample :=
  ⟨0, 0, 0, 0, 0, 0, 0, 0, 0, 0, 0, 0, 0, 0, 0, 0, 0, 0, 0, 0, 0, 0, 0, 0, 0, 0, 0, 0⟩

/-- One step of the agent's poller interleaving. -/
inductive AgentOp : Type
  | poll (m : MemStatsSample)
  | pollSystem (s : SysSample)
deriving DecidableEq

/-- Run an interleaving of the two pollers from a collector state. -/
def runAgentOps (c : Collector) : List AgentOp → Collector
  | [] => c
  | .poll m :: rest => runAgentOps (c.collect m) rest
  | .pollSystem s :: rest => runAgentOps (c.collectSystemMetrics s) rest

/-- Number of `Collect` calls in an interleaving. -/
def countPolls : List AgentOp → Nat
  | [] => 0
  | .poll _ :: rest => countPolls rest + 1
  | .pollSystem _ :: rest => countPolls rest

/-! # Theorems

Helper lemmas about the Go primitives, then one theorem (with witness or
counterexample where required) for each claim C1–C10. -/

theorem wrap64_eq_self {x : Int} (h : isInt64 x) : wrap64 x = x := by
  obtain ⟨h1, h2⟩ := h
  simp only [wrap64, i64Half, i64Mod] at *
  omega

theorem wrap64_wrap64_add (a b : Int) : wrap64 (wrap64 a + b) = wrap64 (a + b) := by
  unfold wrap64 i64Half i64Mod
  omega

theorem mapGet?_set_self {α : Type} (m : List (String × α)) (k : String) (v : α) :
    mapGet? (mapSet m k v) k = some v := by
  induction m with
  | nil => simp [mapSet, mapGet?]
  | cons p rest ih =>
      by_cases h : p.1 = k
      · simp [mapSet, h, mapGet?]
      · simp [mapSet, h, mapGet?, ih]

theorem mapGet?_set_ne {α : Type} (m : List (String × α)) {k k' : String} (v : α)
    (h : k ≠ k') : mapGet? (mapSet m k v) k' = mapGet? m k' := by
  induction m with
  | nil => simp [mapSet, mapGet?, h]
  | cons p rest ih =>
      by_cases hp : p.1 = k
      · simp [mapSet, hp, mapGet?, h]
      · simp [mapSet, hp, mapGet?, ih]

theorem mapGetD_set_self {α : Type} (m : List (String × α)) (k : String) (v d : α) :
    mapGetD (mapSet m k v) k d = v := by
  simp [mapGetD, mapGet?_set_self]

/-! ## C1 — counter accumulation, gauge overwrite -/

theorem counterFold_some (x : String) :
    ∀ (ds : List Int) (s : MemStorage), ds ≠ [] →
      (applyCounterUpdates false s x ds).map (fun r => mapGet? r.counters x)
        = .ok (some (wrap64 (mapGetD s.counters x 0 + ds.sum)))
  | [], _, hne => absurd rfl hne
  | d :: ds, s, _ => by
      have hstep : s.updateCounter false x d
          = .ok { s with
                  counters := mapSet s.counters x (wrap64 (mapGetD s.counters x 0 + d)),
                  version := s.version + 1 } := rfl
      cases ds with
      | nil =>
          simp [applyCounterUpdates, hstep, Except.map, mapGet?_set_self]
      | cons d' ds' =>
          have ih := counterFold_some x (d' :: ds')
            { s with
              counters := mapSet s.counters x (wrap64 (mapGetD s.counters x 0 + d)),
              version := s.version + 1 } (by simp)
          simp only [applyCounterUpdates, hstep] at ih ⊢
          rw [ih]
          simp [mapGetD_set_self, wrap64_wrap64_add, List.sum_cons]
          ring_nf

theorem gaugeFold_last (x : String) (v : F64) :
    ∀ (vs : List F64) (s : MemStorage),
      (applyGaugeUpdates false s x (vs ++ [v])).map (fun r => mapGet? r.gauges x)
        = .ok (some v)
  | [], s => by
      simp [applyGaugeUpdates, MemStorage.updateGauge, Except.map, mapGet?_set_self]
  | v' :: vs, s => by
      have ih := gaugeFold_last x v vs
        { s with gauges := mapSet s.gauges x v', version := s.version + 1 }
      simpa [applyGaugeUpdates, MemStorage.updateGauge] using ih

theorem batchLoop_eq_counterFold (x : String) :
    ∀ (ds : List Int) (s : MemStorage),
      serviceBatchLoop false s (counterRecords x ds) = applyCounterUpdates false s x ds
  | [], _ => rfl
  | d :: ds, s => by
      have ih := batchLoop_eq_counterFold x ds
        { s with
          counters := mapSet s.counters x (wrap64 (mapGetD s.counters x 0 + d)),
          version := s.version + 1 }
      simp only [counterRecords, List.map_cons, counterType] at ih ⊢
      simp [serviceBatchLoop, applyCounterUpdates, counterType, gaugeType,
        MemStorage.updateCounter, ih, counterRecords]

theorem dbFold_getD (x : String) :
    ∀ (ds : List Int) (t : List (String × Int)),
      (∀ i, i < ds.length + 1 → isInt64 (mapGetD t x 0 + (ds.take i).sum)) →
      (dbApplyCounterUpdates t x ds).map (fun r => mapGetD r x 0)
        = .ok (mapGetD t x 0 + ds.sum)
  | [], t, _ => by simp [dbApplyCounterUpdates, Except.map]
  | d :: ds, t, hpre => by
      have h1 : isInt64 (mapGetD t x 0 + d) := by
        have := hpre 1 (by simp only [List.length_cons]; omega)
        simpa using this
      have ih := dbFold_getD x ds (mapSet t x (mapGetD t x 0 + d)) (by
        intro i hi
        have := hpre (i + 1) (by simp only [List.length_cons]; omega)
        simp only [List.take_succ_cons, List.sum_cons] at this
        simpa [mapGetD_set_self, add_assoc] using this)
      simp only [dbApplyCounterUpdates, dbUpdateCounter, if_pos h1]
      rw [ih]
      simp [mapGetD_set_self, add_assoc]

theorem dbFold_some (x : String) :
    ∀ (ds : List Int) (t : List (String × Int)), ds ≠ [] →
      (∀ i, i < ds.length + 1 → isInt64 (mapGetD t x 0 + (ds.take i).sum)) →
      (dbApplyCounterUpdates t x ds).map (fun r => mapGet? r x)
        = .ok (some (mapGetD t x 0 + ds.sum))
  | [], _, hne, _ => absurd rfl hne
  | d :: ds, t, _, hpre => by
      have h1 : isInt64 (mapGetD t x 0 + d) := by
        have := hpre 1 (by simp only [List.length_cons]; omega)
        simpa using this
      have hstep : dbUpdateCounter t x d = .ok (mapSet t x (mapGetD t x 0 + d)) := by
        simp [dbUpdateCounter, if_pos h1]
      have hpre' : ∀ i, i < ds.length + 1 →
          isInt64 (mapGetD (mapSet t x (mapGetD t x 0 + d)) x 0 + (ds.take i).sum) := by
        intro i hi
        have := hpre (i + 1) (by simp only [List.length_cons]; omega)
        simp only [List.take_succ_cons, List.sum_cons] at this
        simpa [mapGetD_set_self, add_assoc] using this
      cases ds with
      | nil =>
          simp [dbApplyCounterUpdates, hstep, Except.map, mapGet?_set_self]
      | cons d' ds' =>
          have ih := dbFold_some x (d' :: ds') (mapSet t x (mapGetD t x 0 + d))
            (by simp) hpre'
          have hout : dbApplyCounterUpdates t x (d :: d' :: ds')
              = dbApplyCounterUpdates (mapSet t x (mapGetD t x 0 + d)) x (d' :: ds') := by
            rw [dbApplyCounterUpdates, hstep]
          rw [hout, ih]
          simp [mapGetD_set_self, add_assoc]

/-- C1 — Counter accumulation: starting from the empty store, a sequence
of counter updates `d1, …, dn` to name `x` — whether through
`UpdateCounter` calls, through the batch-update path, or through the SQL
upsert — leaves a counters snapshot that maps `x` to exactly
`d1 + … + dn`, while a sequence of gauge updates leaves the gauges
snapshot at the last written value (overwrite, not sum).  The running
sums are assumed to stay inside the `int64` range, the regime in which
the spec states the property (overflow is explicitly left undefined). -/
theorem c1_counter_accumulation (x : String) (ds : List Int)
    (hne : ds ≠ [])
    (hpre : ∀ i, i < ds.length + 1 → isInt64 ((ds.take i).sum)) :
    ((applyCounterUpdates false newMemStorage x ds).map
        (fun r => mapGet? r.counters x) = .ok (some ds.sum))
    ∧ ((serviceUpdateMetricsBatch false newMemStorage (counterRecords x ds)).map
        (fun r => mapGet? r.counters x) = .ok (some ds.sum))
    ∧ ((dbApplyCounterUpdates [] x ds).map (fun t => mapGet? t x)
        = .ok (some ds.sum))
    ∧ (∀ (vs : List F64) (v : F64),
        (applyGaugeUpdates false newMemStorage x (vs ++ [v])).map
          (fun r => mapGet? r.gauges x) = .ok (some v)) := by
  have hsum : isInt64 ds.sum := by
    have := hpre ds.length (by omega)
    simpa using this
  have hempty : mapGetD (newMemStorage).counters x 0 = 0 := rfl
  have h1 := counterFold_some x ds newMemStorage hne
  rw [hempty, zero_add, wrap64_eq_self hsum] at h1
  refine ⟨h1, ?_, ?_, fun vs v => gaugeFold_last x v vs newMemStorage⟩
  · rw [serviceUpdateMetricsBatch]
    simp only [Bool.false_eq_true, if_false]
    rw [batchLoop_eq_counterFold]
    exact h1
  · have h2 := dbFold_some x ds [] hne (by
      intro i hi
      simpa [mapGetD, mapGet?] using hpre i hi)
    simpa [mapGetD, mapGet?] using h2

/-! ## C2 — batch-handler atomicity -/

theorem batchHandler_cons_valid (st : MemStorage) (m : Metrics) (rest : List Metrics)
    (hv : validRecord m = true) :
    updateMetricsBatchHandler false st (m :: rest)
      = updateMetricsBatchHandler false (writeRecord st m) rest := by
  have hid : ¬(m.id = "" ∨ m.mtype = "") := by
    intro h
    simp [validRecord, h] at hv
  have hid1 : ¬ m.id = "" := fun h => hid (Or.inl h)
  by_cases hg : m.mtype = gaugeType
  · have hval : m.value.isSome = true := by
      simpa [validRecord, hg, gaugeType, hid1] using hv
    obtain ⟨v, hv2⟩ := Option.isSome_iff_exists.mp hval
    simp [updateMetricsBatchHandler, hg, gaugeType, hid1, hv2, serviceUpdateMetric,
      MemStorage.updateGauge, MemStorage.save, writeRecord, Except.toOption]
  · have hc : m.mtype = counterType := by
      by_cases hc : m.mtype = counterType
      · exact hc
      · exfalso
        revert hv
        simp [validRecord, hg, hc]
    have hval : m.delta.isSome = true := by
      simpa [validRecord, hg, hc, counterType, gaugeType, hid1] using hv
    obtain ⟨d, hd⟩ := Option.isSome_iff_exists.mp hval
    simp [updateMetricsBatchHandler, hc, counterType, gaugeType, hid1, hd,
      serviceUpdateMetric, MemStorage.updateCounter, MemStorage.save, writeRecord,
      Except.toOption]

theorem batchHandler_cons_invalid (st : MemStorage) (m : Metrics) (rest : List Metrics)
    (hb : validRecord m = false) :
    updateMetricsBatchHandler false st (m :: rest) = (400, st) := by
  by_cases hid : m.id = "" ∨ m.mtype = ""
  · simp [updateMetricsBatchHandler, hid]
  · have hid1 : ¬ m.id = "" := fun h => hid (Or.inl h)
    by_cases hg : m.mtype = gaugeType
    · have hval : m.value = none := by
        cases hval : m.value with
        | none => rfl
        | some v =>
            rw [validRecord] at hb
            simp [hg, gaugeType, hid1, hval] at hb
      simp [updateMetricsBatchHandler, hg, gaugeType, hid1, hval]
    · by_cases hc : m.mtype = counterType
      · have hval : m.delta = none := by
          cases hval : m.delta with
          | none => rfl
          | some d =>
              rw [validRecord] at hb
              simp [hg, hc, counterType, gaugeType, hid1, hval] at hb
        simp [updateMetricsBatchHandler, hc, counterType, gaugeType, hid1, hval]
      · simp [updateMetricsBatchHandler, hid, hg, hc]

theorem batchHandler_all_valid :
    ∀ (ms : List Metrics) (st : MemStorage), (∀ m ∈ ms, validRecord m = true) →
      updateMetricsBatchHandler false st ms = (200, ms.foldl writeRecord st)
  | [], st, _ => rfl
  | m :: rest, st, hv => by
      rw [batchHandler_cons_valid st m rest (hv m (by simp))]
      rw [batchHandler_all_valid rest (writeRecord st m)
        (fun m' hm' => hv m' (by simp [hm']))]
      simp

/-- C2 — The claim fails on the code: posting the spec example batch
`[(a, gauge, value 1), (b, counter, no delta)]` to the batch handler
returns 400 but the first (valid) record has already been written — the
store is not unchanged, `a` is observable afterwards. -/
theorem c2_batch_not_atomic_counterexample :
    (updateMetricsBatchHandler false newMemStorage
        [{ id := "a", mtype := "gauge", delta := none, value := some 1, hashField := "" },
         { id := "b", mtype := "counter", delta := none, value := none, hashField := "" }]).1
      = 400
    ∧ mapGet? (updateMetricsBatchHandler false newMemStorage
        [{ id := "a", mtype := "gauge", delta := none, value := some 1, hashField := "" },
         { id := "b", mtype := "counter", delta := none, value := none, hashField := "" }]).2.gauges
        "a" = some 1 := by
  constructor <;> rfl

/-- C2 (amended) — The batch handler validates and writes record by
record: when every record of a prefix is valid and the next record is
invalid, the response is 400 and exactly the valid prefix has been
written (the records from the invalid one on are not); a fully valid
batch answers 200 with every record written. -/
theorem c2_batch_first_error_wins (st : MemStorage) (ms1 : List Metrics)
    (bad : Metrics) (rest : List Metrics)
    (hv : ∀ m ∈ ms1, validRecord m = true) (hb : validRecord bad = false) :
    updateMetricsBatchHandler false st (ms1 ++ bad :: rest)
      = (400, ms1.foldl writeRecord st)
    ∧ ∀ (ms : List Metrics) (st0 : MemStorage), (∀ m ∈ ms, validRecord m = true) →
        updateMetricsBatchHandler false st0 ms = (200, ms.foldl writeRecord st0) := by
  refine ⟨?_, fun ms st0 h => batchHandler_all_valid ms st0 h⟩
  induction ms1 generalizing st with
  | nil => simpa using batchHandler_cons_invalid st bad rest hb
  | cons m ms1 ih =>
      rw [List.cons_append, batchHandler_cons_valid st m _ (hv m (by simp))]
      rw [ih (writeRecord st m) (fun m' hm' => hv m' (by simp [hm']))]
      simp

/-- Witness for C2 (amended) at the spec example: valid prefix
`[(a, gauge, 1)]`, invalid record `(b, counter, no delta)`. -/
theorem c2_batch_first_error_wins_witness :
    updateMetricsBatchHandler false newMemStorage
        [{ id := "a", mtype := "gauge", delta := none, value := some 1, hashField := "" },
         { id := "b", mtype := "counter", delta := none, value := none, hashField := "" }]
      = (400,
          [{ id := "a", mtype := "gauge", delta := none, value := some 1,
             hashField := "" }].foldl writeRecord newMemStorage)
    ∧ updateMetricsBatchHandler false newMemStorage
        [{ id := "a", mtype := "gauge", delta := none, value := some 1, hashField := "" }]
      = (200,
          [{ id := "a", mtype := "gauge", delta := none, value := some 1,
             hashField := "" }].foldl writeRecord newMemStorage) := by
  have h := c2_batch_first_error_wins newMemStorage
    [{ id := "a", mtype := "gauge", delta := none, value := some 1, hashField := "" }]
    { id := "b", mtype := "counter", delta := none, value := none, hashField := "" }
    [] (by decide) (by decide)
  have h2 := h.2
    [{ id := "a", mtype := "gauge", delta := none, value := some 1, hashField := "" }]
    newMemStorage (by decide)
  exact ⟨by simpa using h.1, h2⟩

/-! ## C3 — snapshot stability of the in-memory store -/

/-- C3 — The claim fails on the code: `NewMemStorage` stores the live
gauges map itself into the snapshot cache and no code path ever publishes
a copy (the `version` counter is bumped but never read), so the map
returned by `GetGauges` is the live map.  Holding the view returned from
the empty store and then calling `UpdateGauge("a", 1)` changes what a
lookup of `"a"` through the held view yields: `none` at snapshot time,
`some 1` afterwards — the "read-only view safe to hold" promise of the
spec is not met by the code (a half-implemented snapshot-publication
design, hence a code bug rather than a spec error). -/
theorem c3_snapshot_alias_bug :
    MemStorage.getGauges false newMemStorage = .ok LiveRef.live
    ∧ mapGet? (newMemStorage.derefGauges LiveRef.live) "a" = none
    ∧ (newMemStorage.updateGauge false "a" 1).map
        (fun s1 => mapGet? (s1.derefGauges LiveRef.live) "a") = .ok (some 1) := by
  exact ⟨rfl, rfl, rfl⟩

/-! ## C4 — synchronous file persistence -/

/-- C4 — The claim fails on the code, which is a slip against the spec's
clear intent: with `interval = 0` (sync-save mode), `UpdateGauge` and
`UpdateCounter` acquire `f.mu` and, still holding it, call `saveMetrics`,
which acquires the same non-reentrant mutex again — the call self-deadlocks
and never terminates, so nothing is persisted. -/
theorem c4_sync_update_deadlock_bug :
    (newFileStorage 0).syncSave = true
    ∧ FileStorage.updateGauge false (newFileStorage 0) "a" 1 = FSOutcome.deadlock
    ∧ FileStorage.updateCounter false (newFileStorage 0) "hits" 5 = FSOutcome.deadlock := by
  exact ⟨rfl, rfl, rfl⟩

/-! ## C5 — HMAC round-trip and tamper detection -/

theorem sha256_ne_nil (msg : List Nat) : sha256 msg ≠ [] := by
  simp [sha256, be4]

theorem hexEncode_ne_empty {bs : List Nat} (h : bs ≠ []) : hexEncode bs ≠ "" := by
  cases bs with
  | nil => exact absurd rfl h
  | cons b t => simp [hexEncode, String.ext_iff]

theorem computeHash_ne_empty {key : String} (h : key ≠ "") (data : List Nat) :
    ComputeHash data key ≠ "" := by
  rw [ComputeHash, if_neg h]
  exact hexEncode_ne_empty (sha256_ne_nil _)

/-- C5 — The claim fails on the code for the empty key: with `k = ""`,
`ComputeHash` returns `""` and `ValidateHash` accepts any body/hash pair,
so a tampered body (here byte `0x30` in place of the empty body) still
validates, where the claim demands `false` "including the case k = \"\"". -/
theorem c5_empty_key_tamper_counterexample :
    ValidateHash [48] "" (ComputeHash [] "") = true
    ∧ ([48] : List Nat) ≠ [] := by
  exact ⟨rfl, by decide⟩

/-- C5 (amended) — For every key and body the hash round-trips
(`ValidateHash` accepts the hash `ComputeHash` produced, for the empty key
vacuously); for a non-empty key any tampered body whose HMAC digest
differs from the original's is rejected; for the empty key validation is
vacuous — every received hash is accepted, so tampering is not
detected. -/
theorem c5_hmac_roundtrip_and_tamper (key : String) (data data' : List Nat) :
    ValidateHash data key (ComputeHash data key) = true
    ∧ (key ≠ "" → ComputeHash data' key ≠ ComputeHash data key →
        ValidateHash data' key (ComputeHash data key) = false)
    ∧ (∀ receivedHash, ValidateHash data "" receivedHash = true) := by
  refine ⟨?_, ?_, fun receivedHash => by simp [ValidateHash]⟩
  · by_cases hk : key = ""
    · simp [ValidateHash, hk]
    · rw [ValidateHash, if_neg hk, if_neg (computeHash_ne_empty hk data)]
      simp [hmacEqual]
  · intro hk hne
    rw [ValidateHash, if_neg hk, if_neg (computeHash_ne_empty hk data)]
    simp [hmacEqual, hne]

/-- Witness for C5 (amended) with key `k`, original body empty, tampered
body the single byte `0x30`. -/
theorem c5_hmac_roundtrip_and_tamper_witness :
    ValidateHash [] "k" (ComputeHash [] "k") = true
    ∧ ValidateHash [48] "k" (ComputeHash [] "k") = false
    ∧ ValidateHash [] "" "00" = true := by
  have h := c5_hmac_roundtrip_and_tamper "k" ([] : List Nat) [48]
  exact ⟨h.1, h.2.1 (by decide) (by decide), h.2.2 "00"⟩

/-- Witness for C1 at the spec scenario: deltas 5 then 7 to `hits` sum
to 12. -/
theorem c1_counter_accumulation_witness :
    ((applyCounterUpdates false newMemStorage "hits" [5, 7]).map
        (fun r => mapGet? r.counters "hits") = .ok (some 12))
    ∧ ((serviceUpdateMetricsBatch false newMemStorage (counterRecords "hits" [5, 7])).map
        (fun r => mapGet? r.counters "hits") = .ok (some 12))
    ∧ ((dbApplyCounterUpdates [] "hits" [5, 7]).map (fun t => mapGet? t "hits")
        = .ok (some 12))
    ∧ (∀ (vs : List F64) (v : F64),
        (applyGaugeUpdates false newMemStorage "hits" (vs ++ [v])).map
          (fun r => mapGet? r.gauges "hits") = .ok (some v)) := by
  have h := c1_counter_accumulation "hits" [5, 7] (by decide) (by decide)
  simpa using h

/-! ## C6 — SQL retry policy -/

/-- C6 — The claim fails on the code: with every attempt failing with a
connection-class error (SQLSTATE 08000) and no cancellation, `retryOnError`
calls the operation four times, not at most three, and the waits performed
are 1 s and 3 s only — the 5 s wait of the claimed schedule never happens
(the wait is guarded by `i+1 < len(retryIntervals)` and a final
unconditional attempt follows the loop). -/
theorem c6_retry_counterexample :
    retryOnError (fun _ => false) (fun _ => some (SqlErr.pg "08000"))
      = (RetryResult.opErr (SqlErr.pg "08000"), 4, [1, 3])
    ∧ ¬(4 ≤ 3) ∧ ([1, 3] : List Nat) ≠ [1, 3, 5] := by
  exact ⟨rfl, by decide, by decide⟩

/-- C6 (amended) — Every operation wrapped by `retryOnError` is attempted
at most four times; the waits performed are a prefix of `[1 s, 3 s]` (the
third and fourth attempts are not separated by a wait, and 5 s is never
waited).  For every attempt `k` of the loop (`k = 0, 1, 2`), reached
because every earlier attempt failed with a connection-class error and no
earlier wait was cancelled: a success at attempt `k` returns at once
after `k + 1` attempts, and a non-connection error at attempt `k`
propagates immediately after `k + 1` attempts with no further attempt —
an attempt is repeated only when its error is connection-class.  When all
three loop attempts fail retryably, the unconditional fourth attempt
decides the result (its error propagates whatever its class).  For every
wait `w` (`w = 0, 1`), cancellation during that wait aborts the retry
with the cancellation result after `w + 1` attempts. -/
theorem c6_retry_policy (cancel : Nat → Bool) (op : Nat → Option SqlErr) :
    ((retryOnError cancel op).2.1 ≤ 4
      ∧ ((retryOnError cancel op).2.2 = [] ∨ (retryOnError cancel op).2.2 = [1]
          ∨ (retryOnError cancel op).2.2 = [1, 3]))
    ∧ (∀ k, k < 3 →
        (∀ j, j < k → ∃ ej, op j = some ej ∧ isRetryableError ej = true) →
        (∀ w, w < k → cancel w = false) →
        ((op k = none →
            retryOnError cancel op = (.success, k + 1, [1, 3].take k))
          ∧ (∀ e, op k = some e → isRetryableError e = false →
              retryOnError cancel op = (.opErr e, k + 1, [1, 3].take k))))
    ∧ ((∀ j, j < 3 → ∃ ej, op j = some ej ∧ isRetryableError ej = true) →
        (∀ w, w < 2 → cancel w = false) →
        ((op 3 = none → retryOnError cancel op = (.success, 4, [1, 3]))
          ∧ (∀ e, op 3 = some e → retryOnError cancel op = (.opErr e, 4, [1, 3]))))
    ∧ (∀ w, w < 2 →
        (∀ j, j ≤ w → ∃ ej, op j = some ej ∧ isRetryableError ej = true) →
        (∀ w2, w2 < w → cancel w2 = false) →
        cancel w = true →
        retryOnError cancel op = (.ctxCanceled, w + 1, [1, 3].take w)) := by
  refine ⟨?_, ?_, ?_, ?_⟩
  · cases h0 : op 0 with
    | none => simp [retryOnError, retryLoop, h0]
    | some e =>
      cases hr : isRetryableError e with
      | false => simp [retryOnError, retryLoop, h0, hr]
      | true =>
        cases hc0 : cancel 0 with
        | true => simp [retryOnError, retryLoop, h0, hr, hc0]
        | false =>
          cases h1 : op 1 with
          | none => simp [retryOnError, retryLoop, h0, hr, hc0, h1]
          | some e1 =>
            cases hr1 : isRetryableError e1 with
            | false => simp [retryOnError, retryLoop, h0, hr, hc0, h1, hr1]
            | true =>
              cases hc1 : cancel 1 with
              | true => simp [retryOnError, retryLoop, h0, hr, hc0, h1, hr1, hc1]
              | false =>
                cases h2 : op 2 with
                | none => simp [retryOnError, retryLoop, h0, hr, hc0, h1, hr1, hc1, h2]
                | some e2 =>
                  cases hr2 : isRetryableError e2 with
                  | false =>
                      simp [retryOnError, retryLoop, h0, hr, hc0, h1, hr1, hc1, h2, hr2]
                  | true =>
                      cases h3 : op 3 with
                      | none =>
                          simp [retryOnError, retryLoop, h0, hr, hc0, h1, hr1, hc1,
                            h2, hr2, h3]
                      | some e3 =>
                          simp [retryOnError, retryLoop, h0, hr, hc0, h1, hr1, hc1,
                            h2, hr2, h3]
  · intro k hk hops hcancels
    interval_cases k
    · refine ⟨fun h0 => ?_, fun e h0 hnr => ?_⟩
      · simp [retryOnError, retryLoop, h0]
      · simp [retryOnError, retryLoop, h0, hnr]
    · obtain ⟨e0, h0, hr0⟩ := hops 0 (by omega)
      have hc0 := hcancels 0 (by omega)
      refine ⟨fun h1 => ?_, fun e h1 hnr => ?_⟩
      · simp [retryOnError, retryLoop, h0, hr0, hc0, h1]
      · simp [retryOnError, retryLoop, h0, hr0, hc0, h1, hnr]
    · obtain ⟨e0, h0, hr0⟩ := hops 0 (by omega)
      obtain ⟨e1, h1, hr1⟩ := hops 1 (by omega)
      have hc0 := hcancels 0 (by omega)
      have hc1 := hcancels 1 (by omega)
      refine ⟨fun h2 => ?_, fun e h2 hnr => ?_⟩
      · simp [retryOnError, retryLoop, h0, hr0, hc0, h1, hr1, hc1, h2]
      · simp [retryOnError, retryLoop, h0, hr0, hc0, h1, hr1, hc1, h2, hnr]
  · intro hops hcancels
    obtain ⟨e0, h0, hr0⟩ := hops 0 (by omega)
    obtain ⟨e1, h1, hr1⟩ := hops 1 (by omega)
    obtain ⟨e2, h2, hr2⟩ := hops 2 (by omega)
    have hc0 := hcancels 0 (by omega)
    have hc1 := hcancels 1 (by omega)
    refine ⟨fun h3 => ?_, fun e h3 => ?_⟩
    · simp [retryOnError, retryLoop, h0, hr0, hc0, h1, hr1, hc1, h2, hr2, h3]
    · simp [retryOnError, retryLoop, h0, hr0, hc0, h1, hr1, hc1, h2, hr2, h3]
  · intro w hw hops hcancels hcw
    interval_cases w
    · obtain ⟨e0, h0, hr0⟩ := hops 0 (by omega)
      simp [retryOnError, retryLoop, h0, hr0, hcw]
    · obtain ⟨e0, h0, hr0⟩ := hops 0 (by omega)
      obtain ⟨e1, h1, hr1⟩ := hops 1 (by omega)
      have hc0 := hcancels 0 (by omega)
      simp [retryOnError, retryLoop, h0, hr0, hc0, h1, hr1, hcw]

/-- Witness for C6 (amended), one concrete run per clause: a
non-connection error arising at the third attempt propagates at once
(three attempts, waits 1 s and 3 s, no 5 s); a success at the second
attempt returns after one wait; a persistent connection-class error runs
all four attempts with waits 1 s and 3 s; cancellation during the second
wait aborts after two attempts; a first-attempt non-connection error
propagates after a single attempt. -/
theorem c6_retry_policy_witness :
    retryOnError (fun _ => false)
        (fun n => if n < 2 then some (SqlErr.pg "08006")
                  else some (SqlErr.other "syntax error"))
      = (.opErr (SqlErr.other "syntax error"), 3, [1, 3])
    ∧ retryOnError (fun _ => false)
        (fun n => if n = 0 then some (SqlErr.pg "08000") else none)
      = (.success, 2, [1])
    ∧ retryOnError (fun _ => false) (fun _ => some (SqlErr.pg "08006"))
      = (.opErr (SqlErr.pg "08006"), 4, [1, 3])
    ∧ retryOnError (fun w => w == 1) (fun _ => some (SqlErr.pg "08006"))
      = (.ctxCanceled, 2, [1])
    ∧ retryOnError (fun _ => false) (fun _ => some (SqlErr.other "syntax error"))
      = (.opErr (SqlErr.other "syntax error"), 1, []) := by
  refine ⟨?_, ?_, ?_, ?_, ?_⟩
  · have h := ((c6_retry_policy (fun _ => false)
        (fun n => if n < 2 then some (SqlErr.pg "08006")
                  else some (SqlErr.other "syntax error"))).2.1 2 (by omega)
      (fun j hj => ⟨SqlErr.pg "08006", by interval_cases j <;> exact ⟨rfl, rfl⟩⟩)
      (fun w hw => rfl)).2 (SqlErr.other "syntax error") rfl rfl
    simpa using h
  · have h := ((c6_retry_policy (fun _ => false)
        (fun n => if n = 0 then some (SqlErr.pg "08000") else none)).2.1 1 (by omega)
      (fun j hj => ⟨SqlErr.pg "08000", by interval_cases j; exact ⟨rfl, rfl⟩⟩)
      (fun w hw => rfl)).1 rfl
    simpa using h
  · exact ((c6_retry_policy (fun _ => false)
        (fun _ => some (SqlErr.pg "08006"))).2.2.1
      (fun j hj => ⟨SqlErr.pg "08006", rfl, rfl⟩) (fun w hw => rfl)).2
      (SqlErr.pg "08006") rfl
  · have h := (c6_retry_policy (fun w => w == 1)
        (fun _ => some (SqlErr.pg "08006"))).2.2.2 1 (by omega)
      (fun j hj => ⟨SqlErr.pg "08006", rfl, rfl⟩)
      (fun w2 hw2 => by interval_cases w2; rfl) rfl
    simpa using h
  · have h := ((c6_retry_policy (fun _ => false)
        (fun _ => some (SqlErr.other "syntax error"))).2.1 0 (by omega)
      (fun j hj => absurd hj (Nat.not_lt_zero j))
      (fun w hw => absurd hw (Nat.not_lt_zero w))).2
      (SqlErr.other "syntax error") rfl rfl
    simpa using h

/-! ## C7 — counter echo on the JSON update handler -/

/-- C7 — For a valid counter record with delta `d` posted to the JSON
update handler while the store holds total `t` for that id, the handler
answers 200 and the echoed record carries `delta = t + d`, the accumulated
total after the write (re-read from the store), not the posted `d`; for a
gauge record the echoed value is exactly the value just written.  The new
total is assumed to stay in the `int64` range. -/
theorem c7_counter_echo (st : MemStorage) (name : String) (d t : Int)
    (hid : name ≠ "") (ht : mapGetD st.counters name 0 = t)
    (hrange : isInt64 (t + d)) :
    updateMetricJSONHandler false st
        { id := name, mtype := "counter", delta := some d, value := none,
          hashField := "" }
      = { status := 200,
          body := some { id := name, mtype := "counter", delta := some (t + d),
                         value := none, hashField := "" },
          store := { st with
                     counters := mapSet st.counters name (t + d),
                     version := st.version + 1 } }
    ∧ ∀ (v : F64),
        updateMetricJSONHandler false st
            { id := name, mtype := "gauge", delta := none, value := some v,
              hashField := "" }
          = { status := 200,
              body := some { id := name, mtype := "gauge", delta := none,
                             value := some v, hashField := "" },
              store := { st with
                         gauges := mapSet st.gauges name v,
                         version := st.version + 1 } } := by
  constructor
  · have hwrap : wrap64 (mapGetD st.counters name 0 + d) = t + d := by
      rw [ht, wrap64_eq_self hrange]
    simp [updateMetricJSONHandler, hid, counterType, gaugeType, serviceUpdateMetric,
      MemStorage.updateCounter, MemStorage.save, Except.toOption,
      serviceGetMetricValue, mapGet?_set_self, hwrap]
  · intro v
    simp [updateMetricJSONHandler, hid, counterType, gaugeType, serviceUpdateMetric,
      MemStorage.updateGauge, MemStorage.save, Except.toOption,
      serviceGetMetricValue, mapGet?_set_self]

/-- Witness for C7: the store holds total 5 for `n`; posting delta 7
echoes 12 (and a gauge post echoes its own value). -/
theorem c7_counter_echo_witness :
    updateMetricJSONHandler false
        { gauges := [], counters := [("n", 5)], version := 1 }
        { id := "n", mtype := "counter", delta := some 7, value := none,
          hashField := "" }
      = { status := 200,
          body := some { id := "n", mtype := "counter", delta := some 12,
                         value := none, hashField := "" },
          store := { gauges := [], counters := [("n", 12)], version := 2 } }
    ∧ updateMetricJSONHandler false
        { gauges := [], counters := [("n", 5)], version := 1 }
        { id := "n", mtype := "gauge", delta := none, value := some 1,
          hashField := "" }
      = { status := 200,
          body := some { id := "n", mtype := "gauge", delta := none,
                         value := some 1, hashField := "" },
          store := { gauges := [("n", 1)], counters := [("n", 5)], version := 2 } } := by
  have h := c7_counter_echo { gauges := [], counters := [("n", 5)], version := 1 }
    "n" 7 5 (by decide) (by decide) (by decide)
  exact ⟨by simpa [mapSet] using h.1, by simpa [mapSet] using h.2 1⟩

/-! ## C8 — agent batch poison-400 handling -/

/-- C8 — The claim fails on the code: the `"400"`-poison check runs only
on the error of the first attempt.  With a transport error on the first
attempt and HTTP 400 on every retry, the sender keeps retrying through the
whole schedule (four attempts in total) and returns the 400 error instead
of dropping the payload silently. -/
theorem c8_poison_400_counterexample :
    sendMetricsBatch (fun _ => false)
        (fun n => if n = 0 then some "connection refused" else some (statusErrMsg 400))
      = (.err (statusErrMsg 400), 4)
    ∧ strContains (statusErrMsg 400) "400" = true
    ∧ SendResult.err (statusErrMsg 400) ≠ .ok := by
  exact ⟨rfl, rfl, by simp⟩

/-- C8 (amended) — Only a first-attempt error whose message contains
`"400"` makes `SendMetricsBatch` drop the payload silently (return nil
after that single attempt); a first-attempt success also returns at once;
when the first attempt fails without `"400"` and every retry fails too
(whatever its error, 400 included) under a live context, all four attempts
are made and the last error is returned. -/
theorem c8_poison_first_attempt_only (cancel : Nat → Bool)
    (attempt : Nat → Option String) :
    (∀ msg, attempt 0 = some msg → strContains msg "400" = true →
      sendMetricsBatch cancel attempt = (.ok, 1))
    ∧ (attempt 0 = none → sendMetricsBatch cancel attempt = (.ok, 1))
    ∧ (∀ msg m1 m2 m3, attempt 0 = some msg → strContains msg "400" = false →
        attempt 1 = some m1 → attempt 2 = some m2 → attempt 3 = some m3 →
        (∀ w, cancel w = false) →
        sendMetricsBatch cancel attempt = (.err m3, 4)) := by
  refine ⟨?_, ?_, ?_⟩
  · intro msg h0 hctn
    simp [sendMetricsBatch, h0, hctn]
  · intro h0
    simp [sendMetricsBatch, h0]
  · intro msg m1 m2 m3 h0 hctn h1 h2 h3 hc
    simp [sendMetricsBatch, sendRetryLoop, h0, hctn, h1, h2, h3, hc]

/-- Witness for C8 (amended): a first-attempt 400 is dropped silently,
and a first-attempt transport error followed by three 400 responses is
retried to exhaustion and surfaced. -/
theorem c8_poison_first_attempt_only_witness :
    sendMetricsBatch (fun _ => false) (fun _ => some (statusErrMsg 400)) = (.ok, 1)
    ∧ sendMetricsBatch (fun _ => false)
        (fun n => if n = 0 then some "connection refused" else some (statusErrMsg 400))
      = (.err (statusErrMsg 400), 4) := by
  refine ⟨(c8_poison_first_attempt_only (fun _ => false)
      (fun _ => some (statusErrMsg 400))).1 (statusErrMsg 400) rfl (by decide), ?_⟩
  exact (c8_poison_first_attempt_only (fun _ => false)
      (fun n => if n = 0 then some "connection refused" else some (statusErrMsg 400))).2.2
    "connection refused" (statusErrMsg 400) (statusErrMsg 400) (statusErrMsg 400)
    rfl (by decide) rfl rfl rfl (fun _ => rfl)

/-! ## C9 — trusted-subnet gate -/

/-- C9 — With a configured subnet (a CIDR `net.ParseCIDR` accepts), a
request with a missing/empty `X-Real-IP` header is rejected 403 without
reaching the inner handler, an address `net.ParseIP` cannot parse is
rejected 403, a parsed address outside the subnet (any non-IPv4-mapped
IPv6 address included) is rejected 403, and a parsed address inside the
subnet — plain dotted quad or IPv4-mapped IPv6 — reaches the inner
handler; with no subnet configured every request passes through. -/
theorem c9_trusted_subnet_gate (subnet : String) (net : IPNet) (req : GateRequest)
    (hp : parseCIDR subnet = some net) :
    (req.xRealIP.getD "" = "" →
      trustedSubnetMiddleware subnet req = .forbidden "X-Real-IP header is required")
    ∧ (req.xRealIP.getD "" ≠ "" → parseIP (req.xRealIP.getD "") = none →
      trustedSubnetMiddleware subnet req
        = .forbidden "Invalid IP address in X-Real-IP header")
    ∧ (∀ ip, parseIP (req.xRealIP.getD "") = some ip → ipNetContains net ip = false →
      trustedSubnetMiddleware subnet req
        = .forbidden "IP address is not in trusted subnet")
    ∧ (∀ ip, parseIP (req.xRealIP.getD "") = some ip → ipNetContains net ip = true →
      trustedSubnetMiddleware subnet req = .handled)
    ∧ (∀ r, trustedSubnetMiddleware "" r = .handled) := by
  have hne : subnet ≠ "" := by
    intro h
    rw [h] at hp
    exact Option.noConfusion ((show parseCIDR "" = none from rfl) ▸ hp)
  have hgetd : ∀ ip, parseIP (req.xRealIP.getD "") = some ip →
      req.xRealIP.getD "" ≠ "" := by
    intro ip hip h
    rw [h] at hip
    exact Option.noConfusion ((show parseIP "" = none from rfl) ▸ hip)
  refine ⟨?_, ?_, ?_, ?_, fun r => by simp [trustedSubnetMiddleware]⟩
  · intro h
    simp [trustedSubnetMiddleware, hne, hp, h]
  · intro h hip
    simp [trustedSubnetMiddleware, hne, hp, h, hip]
  · intro ip hip hout
    simp [trustedSubnetMiddleware, hne, hp, hgetd ip hip, hip, hout]
  · intro ip hip hin
    simp [trustedSubnetMiddleware, hne, hp, hgetd ip hip, hip, hin]

/-- Witness for C9 with subnet `10.0.0.0/8`: the spec example
`192.168.1.1` is rejected, `10.1.2.3` and its IPv4-mapped spelling
`::ffff:10.1.2.3` reach the handler, a plain IPv6 address outside any
IPv4 network is rejected, a missing header and a malformed address are
rejected, a leading-zero prefix length (`/08`) still configures the gate,
and no subnet passes everything through. -/
theorem c9_trusted_subnet_gate_witness :
    trustedSubnetMiddleware "10.0.0.0/8" { xRealIP := some "192.168.1.1" }
      = .forbidden "IP address is not in trusted subnet"
    ∧ trustedSubnetMiddleware "10.0.0.0/8" { xRealIP := some "10.1.2.3" } = .handled
    ∧ trustedSubnetMiddleware "10.0.0.0/8" { xRealIP := some "::ffff:10.1.2.3" }
      = .handled
    ∧ trustedSubnetMiddleware "10.0.0.0/8" { xRealIP := some "2001:db8::1" }
      = .forbidden "IP address is not in trusted subnet"
    ∧ trustedSubnetMiddleware "10.0.0.0/8" { xRealIP := none }
      = .forbidden "X-Real-IP header is required"
    ∧ trustedSubnetMiddleware "10.0.0.0/8" { xRealIP := some "not-an-ip" }
      = .forbidden "Invalid IP address in X-Real-IP header"
    ∧ trustedSubnetMiddleware "10.0.0.0/08" { xRealIP := some "10.1.2.3" } = .handled
    ∧ trustedSubnetMiddleware "" { xRealIP := none } = .handled := by
  have hcidr : parseCIDR "10.0.0.0/8" = some { base := 167772160, mask := 4278190080 } := by
    decide
  have hcidr08 : parseCIDR "10.0.0.0/08"
      = some { base := 167772160, mask := 4278190080 } := by
    decide
  refine ⟨?_, ?_, ?_, ?_, ?_, ?_, ?_, ?_⟩
  · exact (c9_trusted_subnet_gate "10.0.0.0/8" _ { xRealIP := some "192.168.1.1" }
      hcidr).2.2.1 (v4MappedBytes 3232235777) (by decide) (by decide)
  · exact (c9_trusted_subnet_gate "10.0.0.0/8" _ { xRealIP := some "10.1.2.3" }
      hcidr).2.2.2.1 (v4MappedBytes 167838211) (by decide) (by decide)
  · exact (c9_trusted_subnet_gate "10.0.0.0/8" _ { xRealIP := some "::ffff:10.1.2.3" }
      hcidr).2.2.2.1 (v4MappedBytes 167838211) (by decide) (by decide)
  · exact (c9_trusted_subnet_gate "10.0.0.0/8" _ { xRealIP := some "2001:db8::1" }
      hcidr).2.2.1 [32, 1, 13, 184, 0, 0, 0, 0, 0, 0, 0, 0, 0, 0, 0, 1]
      (by decide) (by decide)
  · exact (c9_trusted_subnet_gate "10.0.0.0/8" _ { xRealIP := none } hcidr).1 rfl
  · exact (c9_trusted_subnet_gate "10.0.0.0/8" _ { xRealIP := some "not-an-ip" }
      hcidr).2.1 (by decide) (by decide)
  · exact (c9_trusted_subnet_gate "10.0.0.0/08" _ { xRealIP := some "10.1.2.3" }
      hcidr08).2.2.2.1 (v4MappedBytes 167838211) (by decide) (by decide)
  · exact (c9_trusted_subnet_gate "10.0.0.0/8" _ { xRealIP := none } hcidr).2.2.2.2
      { xRealIP := none }

/-! ## C10 — the PollCount invariant of the collector -/

theorem collect_pollCount (c : Collector) (m : MemStatsSample) :
    (c.collect m).pollCount = wrap64 (c.pollCount + 1)
    ∧ (c.collect m).counters = mapSet c.counters "PollCount" (wrap64 (c.pollCount + 1)) := by
  exact ⟨rfl, rfl⟩

theorem collectSystem_preserves (c : Collector) (s : SysSample) :
    (c.collectSystemMetrics s).pollCount = c.pollCount
    ∧ (c.collectSystemMetrics s).counters = c.counters := by
  exact ⟨rfl, rfl⟩

theorem runAgentOps_invariant :
    ∀ (ops : List AgentOp) (c : Collector) (n : Nat),
      c.pollCount = wrap64 n →
      mapGet? c.counters "PollCount" = (if n = 0 then none else some (wrap64 n)) →
      (runAgentOps c ops).pollCount = wrap64 (n + countPolls ops)
      ∧ mapGet? (runAgentOps c ops).counters "PollCount"
          = (if n + countPolls ops = 0 then none else some (wrap64 (n + countPolls ops)))
  | [], c, n, hpc, hcnt => by simpa [runAgentOps, countPolls] using ⟨hpc, hcnt⟩
  | .poll m :: rest, c, n, hpc, hcnt => by
      have hpc' : (c.collect m).pollCount = wrap64 (n + 1) := by
        rw [(collect_pollCount c m).1, hpc, wrap64_wrap64_add]
      have hcnt' : mapGet? (c.collect m).counters "PollCount"
          = (if n + 1 = 0 then none else some (wrap64 (n + 1))) := by
        rw [(collect_pollCount c m).2, hpc, wrap64_wrap64_add]
        simp [mapGet?_set_self]
      have ih := runAgentOps_invariant rest (c.collect m) (n + 1) hpc' hcnt'
      simp only [runAgentOps, countPolls]
      constructor
      · rw [ih.1]
        congr 1
        push_cast
        ring
      · rw [ih.2]
        have h1 : ((n + 1 : Nat) : Int) + (countPolls rest : Int)
            = (n : Int) + ((countPolls rest + 1 : Nat) : Int) := by
          push_cast
          ring
        have h2 : n + 1 + countPolls rest = n + (countPolls rest + 1) := by omega
        rw [h1, h2]
  | .pollSystem s :: rest, c, n, hpc, hcnt => by
      have ih := runAgentOps_invariant rest (c.collectSystemMetrics s) n
        (by rw [(collectSystem_preserves c s).1, hpc])
        (by rw [(collectSystem_preserves c s).2, hcnt])
      simpa [runAgentOps, countPolls] using ih

/-- C10 — After any interleaving of `Collect` and `CollectSystemMetrics`
containing exactly `n` `Collect` calls since construction, the counters
map returned by `GetMetrics` associates `"PollCount"` with exactly `n`
(for `n = 0` the key has not been written yet, so the association is
absent and a Go map read yields the zero value 0 = n); a further
`CollectSystemMetrics` never touches the counters, and `GetMetrics`
returns copies without modifying the state — the map carries the running
total of polls, never an increment.  The poll count is assumed below
`2^63` (the `int64` wrap point of the `pollCount++`). -/
theorem c10_pollcount_running_total (ops : List AgentOp)
    (hn : (countPolls ops : Int) < i64Half) :
    (mapGet? (runAgentOps newCollector ops).getMetrics.2 "PollCount"
        = (if countPolls ops = 0 then none else some (countPolls ops : Int)))
    ∧ mapGetD (runAgentOps newCollector ops).getMetrics.2 "PollCount" 0
        = (countPolls ops : Int)
    ∧ (∀ s, ((runAgentOps newCollector ops).collectSystemMetrics s).counters
        = (runAgentOps newCollector ops).counters) := by
  have hwrap : wrap64 (countPolls ops : Int) = (countPolls ops : Int) :=
    wrap64_eq_self ⟨by simp only [i64Half]; omega, hn⟩
  have h := runAgentOps_invariant ops newCollector 0 rfl rfl
  simp only [Nat.cast_zero, zero_add, Nat.zero_add] at h
  refine ⟨?_, ?_, fun s => (collectSystem_preserves _ s).2⟩
  · rw [show (runAgentOps newCollector ops).getMetrics.2
        = (runAgentOps newCollector ops).counters from rfl, h.2, hwrap]
  · rw [mapGetD, show (runAgentOps newCollector ops).getMetrics.2
        = (runAgentOps newCollector ops).counters from rfl, h.2, hwrap]
    by_cases hz : countPolls ops = 0
    · simp [hz]
    · simp [hz]

/-- Witness for C10: two `Collect` calls interleaved with one
`CollectSystemMetrics` leave `PollCount` at exactly 2. -/
theorem c10_pollcount_running_total_witness :
    (mapGet? (runAgentOps newCollector
        [AgentOp.poll zeroMemStats, AgentOp.pollSystem ⟨none, none⟩,
         AgentOp.poll zeroMemStats]).getMetrics.2 "PollCount" = some 2)
    ∧ mapGetD (runAgentOps newCollector
        [AgentOp.poll zeroMemStats, AgentOp.pollSystem ⟨none, none⟩,
         AgentOp.poll zeroMemStats]).getMetrics.2 "PollCount" 0 = 2
    ∧ (∀ s, ((runAgentOps newCollector
        [AgentOp.poll zeroMemStats, AgentOp.pollSystem ⟨none, none⟩,
         AgentOp.poll zeroMemStats]).collectSystemMetrics s).counters
        = (runAgentOps newCollector
        [AgentOp.poll zeroMemStats, AgentOp.pollSystem ⟨none, none⟩,
         AgentOp.poll zeroMemStats]).counters) := by
  have h := c10_pollcount_running_total
    [AgentOp.poll zeroMemStats, AgentOp.pollSystem ⟨none, none⟩,
     AgentOp.poll zeroMemStats] (by decide)
  simpa [countPolls] using h

end GoMetrics
